import Mathlib

/-!
Verification of the VNet address-space allocator of
`scripts/deploy-openclaw.py` (classes `VNetAddressManager`, `VMDeployer`,
`DeployConfig`).

The embedding follows the Python source line by line:

* an IPv4 CIDR block is a pair of a base address (a `Nat` below `2^32`) and a
  prefix length; `ipaddress.ip_network` string parsing (strict mode, the
  default used by the script) is modelled by `parseNetwork`;
* `IPv4Network.overlaps` from the Python standard library is modelled by
  `overlaps`, reproducing its four endpoint-membership tests;
* `IPv4Network.subnets(new_prefix=k)` is modelled by `subnetsChecked`,
  reproducing the standard library's behaviour: a parent whose prefix length
  equals 32 yields itself, a `new_prefix` shorter than the parent's raises
  `ValueError`, and otherwise the sub-blocks are enumerated in ascending
  order of base address;
* exceptions raised (or propagated) by the script are modelled with
  `Except AzError`.

IPv6 entries in inventory are parsed to `none` and skipped; in the Python
code they parse successfully but can never overlap an IPv4 candidate (mixed
version `overlaps` is always `False`), so the observable allocator behaviour
is identical.
-/

namespace OpenClawDeploy

/-- An IPv4 CIDR block: base (network) address and prefix length.
Mirrors `ipaddress.IPv4Network` as used by the script. -/
structure Cidr where
  base : Nat
  plen : Nat
deriving DecidableEq

/-- Broadcast (last) address of a block, as a natural number. -/
def lastAddr (c : Cidr) : Nat := c.base + 2 ^ (32 - c.plen) - 1

/-- Membership of an address in a block (`addr in network` in Python). -/
def containsAddr (n : Cidr) (x : Nat) : Bool :=
  decide (n.base ≤ x ∧ x ≤ lastAddr n)

/-- Model of `IPv4Network.overlaps` from CPython's `ipaddress`:
`self.network_address in other or self.broadcast_address in other or
 other.network_address in self or other.broadcast_address in self`. -/
def overlaps (a b : Cidr) : Bool :=
  containsAddr b a.base || containsAddr b (lastAddr a) ||
    containsAddr a b.base || containsAddr a (lastAddr b)

/-- Whether a block overlaps some member of a list of blocks: the inner
`for existing in existing_networks: if subnet.overlaps(existing)` loop. -/
def overlapsAny (c : Cidr) (l : List Cidr) : Bool :=
  l.any (fun e => overlaps c e)

/-- Containment of blocks as address intervals (`a` inside `b`), the
specification's notion of a sub-block being inside a parent. -/
def subnetOf (a b : Cidr) : Prop :=
  b.base ≤ a.base ∧ lastAddr a ≤ lastAddr b

instance (a b : Cidr) : Decidable (subnetOf a b) := by
  unfold subnetOf; infer_instance

/-! ### String parsing (`ipaddress.ip_network`, strict mode) -/

/-- Split a character list on a separator character (used for the dots and
the slash of a CIDR string). -/
def splitOnChar (sep : Char) : List Char → List (List Char)
  | [] => [[]]
  | c :: cs =>
    let r := splitOnChar sep cs
    if c == sep then [] :: r
    else
      match r with
      | [] => [[c]]
      | g :: gs => (c :: g) :: gs

/-- Parse a run of decimal digits into a number; any non-digit fails. -/
def parseNatAux : List Char → Nat → Option Nat
  | [], acc => some acc
  | c :: cs, acc =>
    if c.isDigit then parseNatAux cs (acc * 10 + (c.toNat - 48)) else none

/-- Parse one dotted-quad octet. CPython rejects empty octets, non-digits,
leading zeros (ambiguous octal) and values above 255. -/
def parseOctet (l : List Char) : Option Nat :=
  match l with
  | [] => none
  | c :: cs =>
    if c == '0' && !cs.isEmpty then none
    else
      match parseNatAux (c :: cs) 0 with
      | some n => if n ≤ 255 then some n else none
      | none => none

/-- Parse a dotted-quad IPv4 address into its 32-bit value. -/
def parseIPv4 (l : List Char) : Option Nat :=
  match splitOnChar '.' l with
  | [a, b, c, d] =>
    (parseOctet a).bind fun va =>
      (parseOctet b).bind fun vb =>
        (parseOctet c).bind fun vc =>
          (parseOctet d).bind fun vd =>
            some (va * 16777216 + vb * 65536 + vc * 256 + vd)
  | _ => none

/-- Parse the prefix-length part. CPython accepts any decimal digit string
(leading zeros included) whose value is at most 32. -/
def parsePlen (l : List Char) : Option Nat :=
  match l with
  | [] => none
  | _ :: _ =>
    match parseNatAux l 0 with
    | some p => if p ≤ 32 then some p else none
    | none => none

/-- Model of `ipaddress.ip_network(s)` (strict, the script's usage) for IPv4
inputs: `a.b.c.d/p` with the host bits required to be zero, or a bare
address which denotes a `/32`.  Every failure mode (`ValueError` in Python)
is `none`. -/
def parseNetwork (s : String) : Option Cidr :=
  match splitOnChar '/' s.data with
  | [addr, pl] =>
    (parseIPv4 addr).bind fun base =>
      (parsePlen pl).bind fun p =>
        if base % 2 ^ (32 - p) = 0 then some ⟨base, p⟩ else none
  | [addr] => (parseIPv4 addr).map fun base => ⟨base, 32⟩
  | _ => none

/-- Decimal rendering of a 32-bit address (`str(network)` in Python). -/
def ipToString (n : Nat) : String :=
  Nat.repr (n / 16777216 % 256) ++ "." ++ Nat.repr (n / 65536 % 256) ++ "."
    ++ Nat.repr (n / 256 % 256) ++ "." ++ Nat.repr (n % 256)

/-- Model of `str(network)` for an `IPv4Network`. -/
def cidrToString (c : Cidr) : String :=
  ipToString c.base ++ "/" ++ Nat.repr c.plen

/-! ### Sub-block enumeration (`IPv4Network.subnets(new_prefix=k)`) -/

/-- Successive blocks of prefix length `k` starting at base `b`, stepping by
`step` addresses, `m` blocks in total: the CPython `subnets` generator yields
exactly this sequence (ascending order of base address). -/
def subnetsFrom (step k : Nat) : Nat → Nat → List Cidr
  | _, 0 => []
  | b, m + 1 => ⟨b, k⟩ :: subnetsFrom step k (b + step) m

/-- The list of sub-blocks of prefix length `k` of a parent `n`, in ascending
order of base address (the order the CPython generator yields them in):
`2 ^ (k - plen)` blocks of `2 ^ (32 - k)` addresses each. -/
def subnetsList (n : Cidr) (k : Nat) : List Cidr :=
  subnetsFrom (2 ^ (32 - k)) k n.base (2 ^ (k - n.plen))

/-- The errors raised (and in one place caught) by the script, by kind:
`notFound` and `addressSpaceExhausted` are the `RuntimeError`s of
`VNetAddressManager`, `noAddressSpace` is the `RuntimeError` for a VNet with
an empty address space, `valueError` is an uncaught `ValueError` from
`ipaddress`, and `indexError` an uncaught `IndexError` from `list(...)[0]`. -/
inductive AzError
  | notFound
  | noAddressSpace
  | valueError
  | indexError
  | addressSpaceExhausted
deriving DecidableEq

instance {ε α : Type} [DecidableEq ε] [DecidableEq α] :
    DecidableEq (Except ε α) := fun x y =>
  match x, y with
  | .error e, .error f =>
    if h : e = f then isTrue (congrArg Except.error h)
    else isFalse (fun hh => h (by injection hh))
  | .error _, .ok _ => isFalse (fun hh => Except.noConfusion hh)
  | .ok _, .error _ => isFalse (fun hh => Except.noConfusion hh)
  | .ok a, .ok b =>
    if h : a = b then isTrue (congrArg Except.ok h)
    else isFalse (fun hh => h (by injection hh))

/-- Model of CPython's `IPv4Network.subnets(new_prefix=k)`, including its
quirks: a parent whose prefix length is already the maximal 32 yields itself
(whatever `new_prefix` says), a `new_prefix` shorter than the parent's prefix
raises `ValueError`, as does a resulting prefix longer than 32. -/
def subnetsChecked (n : Cidr) (k : Nat) : Except AzError (List Cidr) :=
  if n.plen = 32 then .ok [n]
  else if k < n.plen then .error .valueError
  else if 32 < k then .error .valueError
  else .ok (subnetsList n k)

/-! ### `VNetAddressManager` constants and allocation -/

/-- `BASE_NETWORK = "10.200.0.0/16"`; `10.200.0.0` is `180879360`. -/
def BASE_NETWORK : Cidr := ⟨180879360, 16⟩

/-- `VNET_PREFIX_LEN = 27`. -/
def VNET_PREFIX_LEN : Nat := 27

/-- `SUBNET_PREFIX_LEN = 28`. -/
def SUBNET_PREFIX_LEN : Nat := 28

/-- The `/27` candidate blocks of `10.200.0.0/16`, the iteration space of
`base_network.subnets(new_prefix=self.VNET_PREFIX_LEN)` (which cannot raise:
27 is between 16 and 32 and the base is not a `/32`). -/
def vnetCandidates : List Cidr := subnetsList BASE_NETWORK VNET_PREFIX_LEN

/-- Parsing loop of `get_next_available_prefix`: each claimed string is fed
to `ipaddress.ip_network` and a `ValueError` is swallowed (`except
ValueError: pass`), so malformed entries are silently dropped. -/
def parseExisting (ps : List String) : List Cidr :=
  ps.filterMap parseNetwork

/-- Shared sub-expression `list(net.subnets(new_prefix=28))[0]` (used at line
227 inside `get_next_available_prefix` and at line 489 of
`_resolve_network_config`); the specification calls it `deriveFirstSubBlock`.
An empty enumeration would raise `IndexError`. -/
def deriveFirstSubBlock (parent : Cidr) : Except AzError Cidr :=
  match subnetsChecked parent SUBNET_PREFIX_LEN with
  | .error e => .error e
  | .ok [] => .error .indexError
  | .ok (s :: _) => .ok s

/-- Candidate scan of `get_next_available_prefix` (lines 216-231), after the
claimed strings have been parsed: return the first `/27` candidate that
overlaps no existing network, paired with its first `/28`; raise
`RuntimeError` (`addressSpaceExhausted`) when every candidate overlaps. -/
def allocCore (existingNetworks : List Cidr) : Except AzError (Cidr × Cidr) :=
  match vnetCandidates.find? (fun s => !overlapsAny s existingNetworks) with
  | some v => (deriveFirstSubBlock v).map (fun s => (v, s))
  | none => .error .addressSpaceExhausted

/-- `VNetAddressManager.get_next_available_prefix`, as a function of the
claimed prefix strings returned by the inventory query (the source returns
the pair as strings; stringification happens where the caller stores them,
see `resolveNetworkConfig`). -/
def getNextAvailablePrefix (existingPrefixes : List String) :
    Except AzError (Cidr × Cidr) :=
  allocCore (parseExisting existingPrefixes)

/-! ### Inventory query results (responses of the `az` CLI collaborator) -/

/-- Result of `az network vnet subnet show` as the script reads it: the
`addressPrefix` field, which may be absent (`dict.get` default). -/
structure SubnetShow where
  addressPrefix : Option String
deriving DecidableEq

/-- Result of `az network vnet show` as the script reads it:
`addressSpace.addressPrefixes` and the `addressPrefix` field of each entry of
`subnets` (absent or null modelled as `none`). -/
structure VNetShow where
  addressPrefixes : List String
  subnets : List (Option String)
deriving DecidableEq

/-- Point-in-time snapshot of every inventory response the resolver can ask
for during one invocation.  `none` stands for a failed query: the script runs
these commands with `check=False`, so a failure yields no output and
`run_json` returns `None`; an empty JSON object (falsy in Python) is also
`none`. -/
structure AzEnv where
  subnetShow : Option SubnetShow
  vnetShow : Option VNetShow
  vnetList : Option (List String)
deriving DecidableEq

/-- `VNetAddressManager.get_existing_vnet_prefixes`: empty in dry-run mode;
otherwise the query result, with `None`, a non-list, or an empty list (all
falsy or filtered by `isinstance`) replaced by `[]`. -/
def getExistingVnetPrefixes (dryRun : Bool) (vnetList : Option (List String)) :
    List String :=
  if dryRun then []
  else
    match vnetList with
    | some l => if l.isEmpty then [] else l
    | none => []

/-- Subnet-collection loop of `get_next_subnet_in_vnet` (lines 256-260):
entries whose `addressPrefix` is absent or empty (falsy) are skipped, and a
malformed prefix raises an uncaught `ValueError` (no `try` here, unlike the
parsing loop of `get_next_available_prefix`). -/
def collectSubnets : List (Option String) → Except AzError (List Cidr)
  | [] => .ok []
  | none :: rest => collectSubnets rest
  | some p :: rest =>
    if p == "" then collectSubnets rest
    else
      match parseNetwork p with
      | none => .error .valueError
      | some n =>
        match collectSubnets rest with
        | .error e => .error e
        | .ok l => .ok (n :: l)

/-- Scan loop of `get_next_subnet_in_vnet` (lines 262-273), once the VNet
block and the existing subnets are in hand: the first `/28` candidate of the
block that overlaps no existing subnet, else the `RuntimeError` for an
exhausted VNet. -/
def subnetScanCore (vnetNetwork : Cidr) (existingSubnets : List Cidr) :
    Except AzError Cidr :=
  match subnetsChecked vnetNetwork SUBNET_PREFIX_LEN with
  | .error e => .error e
  | .ok cands =>
    match cands.find? (fun s => !overlapsAny s existingSubnets) with
    | some s => .ok s
    | none => .error .addressSpaceExhausted

/-- `VNetAddressManager.get_next_subnet_in_vnet`, as a function of the
`az network vnet show` response for the named VNet.  Dry-run returns the
hard-coded dummy `10.200.0.16/28`; a missing VNet raises `RuntimeError`
(`notFound`); candidates are the `/28` blocks of `addressPrefixes[0]` only;
the first candidate overlapping no existing subnet is returned. -/
def getNextSubnetInVnet (dryRun : Bool) (vnetInfo : Option VNetShow) :
    Except AzError Cidr :=
  if dryRun then .ok ⟨180879376, 28⟩
  else
    match vnetInfo with
    | none => .error .notFound
    | some info =>
      match info.addressPrefixes with
      | [] => .error .noAddressSpace
      | p0 :: _ =>
        match parseNetwork p0 with
        | none => .error .valueError
        | some vnetNetwork =>
          match collectSubnets info.subnets with
          | .error e => .error e
          | .ok existingSubnets => subnetScanCore vnetNetwork existingSubnets

/-! ### `DeployConfig` and the network-configuration resolver -/

/-- Python truthiness of an optional string: `None` and `""` are falsy. -/
def truthyS : Option String → Bool
  | none => false
  | some s => !(s == "")

/-- The fields of `DeployConfig` consumed by `_resolve_network_config`, after
`__post_init__` has run (`reuseVnet`/`reuseSubnet` are the internal
`_reuse_vnet`/`_reuse_subnet` flags). -/
structure Config where
  name : String
  resourceGroup : String
  vnetPrefix : String
  subnetPrefix : String
  vnetName : Option String
  subnetName : Option String
  dryRun : Bool
  reuseVnet : Bool
  reuseSubnet : Bool
deriving DecidableEq

/-- `DeployConfig.__post_init__`: default the resource group to
`f"{name}-group"` when falsy, and set the reuse flags — both when a VNet name
and a subnet name are supplied (truthy), only `_reuse_vnet` when just a VNet
name is. -/
def mkConfig (name : String) (resourceGroup : Option String)
    (vnetPrefixArg subnetPrefixArg : String)
    (vnetName subnetName : Option String) (dryRun : Bool) : Config :=
  { name := name
    resourceGroup :=
      if truthyS resourceGroup then resourceGroup.getD "" else name ++ "-group"
    vnetPrefix := vnetPrefixArg
    subnetPrefix := subnetPrefixArg
    vnetName := vnetName
    subnetName := subnetName
    dryRun := dryRun
    reuseVnet := truthyS vnetName
    reuseSubnet := truthyS vnetName && truthyS subnetName }

/-- `VMDeployer._resolve_network_config` (lines 438-490), as a function of
the configuration and the inventory snapshot, returning the updated
configuration (the Python method mutates `self.config` in place).

* Both reuse flags set: query the subnet (`check=False`); when the query
  yields nothing the method silently leaves the configuration unchanged —
  no error is raised for a missing network or subnet.
* Only `_reuse_vnet`: delegate to `get_next_subnet_in_vnet` (which raises
  for a missing VNet), then fetch the VNet range for display.
* Neither: allocate both ranges when no VNet prefix was supplied; derive the
  first `/28` when only the VNet prefix was supplied; otherwise pass both
  caller-supplied ranges through with no validation at all. -/
def resolveNetworkConfig (cfg : Config) (env : AzEnv) : Except AzError Config :=
  if cfg.reuseVnet && cfg.reuseSubnet then
    if cfg.dryRun then .ok cfg
    else
      match env.subnetShow with
      | none => .ok cfg
      | some si =>
        let cfg1 := { cfg with subnetPrefix := si.addressPrefix.getD "existing" }
        match env.vnetShow with
        | none => .ok cfg1
        | some vi =>
          .ok { cfg1 with
                  vnetPrefix :=
                    match vi.addressPrefixes with
                    | [] => "existing"
                    | p :: _ => p }
  else if cfg.reuseVnet then
    match getNextSubnetInVnet cfg.dryRun env.vnetShow with
    | .error e => .error e
    | .ok s =>
      let cfg1 := { cfg with subnetPrefix := cidrToString s }
      if cfg1.dryRun then .ok cfg1
      else
        match env.vnetShow with
        | none => .ok cfg1
        | some vi =>
          .ok { cfg1 with
                  vnetPrefix :=
                    match vi.addressPrefixes with
                    | [] => "existing"
                    | p :: _ => p }
  else
    if cfg.vnetPrefix == "" then
      match getNextAvailablePrefix
          (getExistingVnetPrefixes cfg.dryRun env.vnetList) with
      | .error e => .error e
      | .ok (v, s) =>
        .ok { cfg with
                vnetPrefix := cidrToString v
                subnetPrefix := cidrToString s }
    else if cfg.subnetPrefix == "" then
      match parseNetwork cfg.vnetPrefix with
      | none => .error .valueError
      | some vn =>
        match deriveFirstSubBlock vn with
        | .error e => .error e
        | .ok s => .ok { cfg with subnetPrefix := cidrToString s }
    else .ok cfg

/-! ### Manager state for the purity property -/

/-- The state a `VNetAddressManager` instance holds (its constructor
arguments), together with the inventory snapshot the `az` collaborator would
answer with. -/
structure ManagerWorld where
  azDryRun : Bool
  azVerbose : Bool
  resourceGroup : String
  env : AzEnv
deriving DecidableEq

/-- One call of `get_next_available_prefix` on a manager, state-passing
style: the result, together with the world as the call leaves it.  The
method only reads (`self.az.dry_run`, the query response, the class
constants); it assigns no attribute and mutates no argument, so the world
after the call is the world before it. -/
def runGetNextAvailablePrefix (w : ManagerWorld) :
    Except AzError (Cidr × Cidr) × ManagerWorld :=
  (getNextAvailablePrefix (getExistingVnetPrefixes w.azDryRun w.env.vnetList), w)

/-! ### Concrete scenario inputs used by the claims -/

/-- FullReuse configuration naming a network and subnet that do not exist. -/
def cfgFullReuseMissing : Config :=
  mkConfig "test" none "" "" (some "missing-vnet") (some "missing-subnet") false

/-- Inventory snapshot in which every query fails (nothing exists). -/
def envNoInventory : AzEnv := ⟨none, none, none⟩

/-- FreshAllocation configuration with both ranges supplied explicitly; the
subnet range `10.201.0.0/28` is not contained in the network range
`10.200.0.0/27`. -/
def cfgExplicitRanges : Config :=
  mkConfig "test" none "10.200.0.0/27" "10.201.0.0/28" none none false

/-- PartialReuse configuration: only a VNet name is supplied. -/
def cfgPartialReuse : Config :=
  mkConfig "test" none "" "" (some "existing-vnet") none false

/-- Scenario D inventory: the reused VNet has range `10.200.5.0/27` and one
existing subnet `10.200.5.0/28`. -/
def envScenarioD : AzEnv :=
  ⟨none, some ⟨["10.200.5.0/27"], [some "10.200.5.0/28"]⟩, none⟩

/-- A VNet whose first listed prefix (`10.200.5.0/28`) is fully taken while
its second prefix (`10.200.6.0/24`) is free. -/
def vnetTwoPrefixes : VNetShow :=
  ⟨["10.200.5.0/28", "10.200.6.0/24"], [some "10.200.5.0/28"]⟩

/-- The same inventory with the free prefix listed first instead. -/
def vnetSecondPrefixOnly : VNetShow :=
  ⟨["10.200.6.0/24"], [some "10.200.5.0/28"]⟩

/-! ### Helper lemmas -/

theorem one_le_pow32 (k : Nat) : 1 ≤ 2 ^ k := Nat.one_le_two_pow

/-- The four endpoint-membership tests of CPython's `overlaps` amount to
interval intersection (both blocks are nonempty intervals). -/
theorem overlaps_iff (a b : Cidr) :
    overlaps a b = true ↔ a.base ≤ lastAddr b ∧ b.base ≤ lastAddr a := by
  have ha := one_le_pow32 (32 - a.plen)
  have hb := one_le_pow32 (32 - b.plen)
  simp only [overlaps, containsAddr, lastAddr, Bool.or_eq_true,
    decide_eq_true_eq]
  omega

theorem overlaps_self (r : Cidr) : overlaps r r = true := by
  rw [overlaps_iff]
  have := one_le_pow32 (32 - r.plen)
  unfold lastAddr
  omega

theorem overlaps_eq_false_of_sep {a b : Cidr}
    (h : lastAddr a < b.base ∨ lastAddr b < a.base) : overlaps a b = false := by
  cases hov : overlaps a b
  · rfl
  · exfalso
    have hh := (overlaps_iff a b).mp hov
    rcases h with h | h <;> omega

theorem mem_subnetsFrom {step k : Nat} :
    ∀ {m b : Nat} {r : Cidr}, r ∈ subnetsFrom step k b m →
      ∃ i, i < m ∧ r.base = b + i * step ∧ r.plen = k := by
  intro m
  induction m with
  | zero => intro b r h; simp [subnetsFrom] at h
  | succ m ih =>
    intro b r h
    rw [subnetsFrom] at h
    rcases List.mem_cons.mp h with h | h
    · exact ⟨0, Nat.succ_pos m, by simp [h], by simp [h]⟩
    · obtain ⟨i, hi, hb, hk⟩ := ih h
      refine ⟨i + 1, by omega, ?_, hk⟩
      rw [hb, Nat.succ_mul]
      omega

theorem subnetsFrom_base_le {step k m b : Nat} {r : Cidr}
    (h : r ∈ subnetsFrom step k b m) : b ≤ r.base := by
  obtain ⟨i, _, hb, _⟩ := mem_subnetsFrom h
  rw [hb]
  exact Nat.le_add_right _ _

theorem subnetsFrom_sorted (step k : Nat) :
    ∀ (m b : Nat),
      (subnetsFrom step k b m).Pairwise (fun a c => a.base ≤ c.base) := by
  intro m
  induction m with
  | zero => intro b; simp [subnetsFrom]
  | succ m ih =>
    intro b
    rw [subnetsFrom]
    refine List.pairwise_cons.mpr ⟨?_, ih _⟩
    intro a ha
    have hle := subnetsFrom_base_le ha
    show b ≤ a.base
    omega

/-- `find?` on a list sorted by base address returns an element whose base
is minimal among the elements satisfying the predicate. -/
theorem find?_first {p : Cidr → Bool} :
    ∀ {l : List Cidr}, l.Pairwise (fun a c => a.base ≤ c.base) →
      ∀ {v : Cidr}, l.find? p = some v → ∀ c ∈ l, p c = true → v.base ≤ c.base := by
  intro l
  induction l with
  | nil => intro _ v hf; simp [List.find?] at hf
  | cons x xs ih =>
    intro hp v hf c hc hpc
    by_cases hx : p x = true
    · rw [List.find?_cons_of_pos _ hx] at hf
      have hv : x = v := by injection hf
      subst hv
      rcases List.mem_cons.mp hc with h | hc2
      · rw [h]
      · exact List.rel_of_pairwise_cons hp hc2
    · rw [List.find?_cons_of_neg _ hx] at hf
      rcases List.mem_cons.mp hc with h | hc2
      · rw [h] at hpc
        exact absurd hpc hx
      · exact ih (List.Pairwise.of_cons hp) hf c hc2 hpc

/-- `vnetCandidates` unfolded to its generator form. -/
theorem vnetCandidates_eq :
    vnetCandidates = subnetsFrom 32 27 180879360 2048 := rfl

theorem vnetCandidates_plen {r : Cidr} (h : r ∈ vnetCandidates) :
    r.plen = 27 := by
  rw [vnetCandidates_eq] at h
  obtain ⟨i, hi, hb, hk⟩ := mem_subnetsFrom h
  exact hk

theorem vnetCandidates_sorted :
    vnetCandidates.Pairwise (fun a c => a.base ≤ c.base) := by
  rw [vnetCandidates_eq]
  exact subnetsFrom_sorted 32 27 2048 180879360

/-- Two distinct `/27` candidates never overlap: they are distinct blocks of
a partition of the budget. -/
theorem vnetCandidates_disjoint {a b : Cidr} (ha : a ∈ vnetCandidates)
    (hb : b ∈ vnetCandidates) (hne : a ≠ b) : overlaps a b = false := by
  rw [vnetCandidates_eq] at ha hb
  obtain ⟨i, hi, hab, hak⟩ := mem_subnetsFrom ha
  obtain ⟨j, hj, hbb, hbk⟩ := mem_subnetsFrom hb
  have hij : i ≠ j := by
    intro he
    apply hne
    cases a
    cases b
    simp only [Cidr.mk.injEq]
    subst he
    simp only at hab hbb hak hbk
    omega
  have hpow : (2 : Nat) ^ (32 - 27) = 32 := by norm_num
  have hla : lastAddr a = a.base + 31 := by rw [lastAddr, hak, hpow]; omega
  have hlb : lastAddr b = b.base + 31 := by rw [lastAddr, hbk, hpow]; omega
  apply overlaps_eq_false_of_sep
  rcases Nat.lt_or_ge i j with hlt | hge
  · left
    have hm : (i + 1) * 32 ≤ j * 32 := Nat.mul_le_mul_right 32 hlt
    rw [Nat.succ_mul] at hm
    omega
  · right
    have hlt : j < i := by omega
    have hm : (j + 1) * 32 ≤ i * 32 := Nat.mul_le_mul_right 32 hlt
    rw [Nat.succ_mul] at hm
    omega

/-- Every member of `subnetsList n k` (for a sensible `k`) is a `/k` block
contained in `n`. -/
theorem subnetsList_mem_subnetOf {n : Cidr} {k : Nat} (hk : n.plen ≤ k)
    (h32 : k ≤ 32) {r : Cidr} (hr : r ∈ subnetsList n k) :
    r.plen = k ∧ subnetOf r n := by
  have hr2 : r ∈ subnetsFrom (2 ^ (32 - k)) k n.base (2 ^ (k - n.plen)) := hr
  obtain ⟨i, hi, hb, hp⟩ := mem_subnetsFrom hr2
  refine ⟨hp, ?_, ?_⟩
  · rw [hb]
    exact Nat.le_add_right _ _
  · have hS := one_le_pow32 (32 - k)
    have hNS : 2 ^ (k - n.plen) * 2 ^ (32 - k) = 2 ^ (32 - n.plen) := by
      rw [← pow_add]
      congr 1
      omega
    have hmul : (i + 1) * 2 ^ (32 - k) ≤ 2 ^ (k - n.plen) * 2 ^ (32 - k) :=
      Nat.mul_le_mul_right _ (by omega)
    rw [hNS, Nat.succ_mul] at hmul
    rw [lastAddr, lastAddr, hb, hp]
    omega

/-- `subnets(new_prefix=k)` succeeds exactly as the enumeration whenever the
parent prefix is at most `k ≤ 32` (the `/32` special case coincides with the
enumeration when it applies under these bounds). -/
theorem subnetsChecked_eq_ok {n : Cidr} {k : Nat} (hk : n.plen ≤ k)
    (h32 : k ≤ 32) : subnetsChecked n k = .ok (subnetsList n k) := by
  unfold subnetsChecked
  by_cases h : n.plen = 32
  · have hk32 : k = 32 := by omega
    subst hk32
    rw [if_pos h]
    cases n with
    | mk b p =>
      simp only at h
      subst h
      rfl
  · rw [if_neg h, if_neg (Nat.not_lt.mpr hk), if_neg (Nat.not_lt.mpr h32)]

/-- First sub-block of a parent that can hold a `/28`: the block with the
parent's base address and prefix length 28. -/
theorem deriveFirstSubBlock_ok {parent : Cidr} (h : parent.plen ≤ 28) :
    deriveFirstSubBlock parent = .ok ⟨parent.base, 28⟩ := by
  have hch : subnetsChecked parent SUBNET_PREFIX_LEN
      = .ok (subnetsList parent 28) := subnetsChecked_eq_ok h (by decide)
  obtain ⟨m, hm⟩ : ∃ m, 2 ^ (28 - parent.plen) = m + 1 :=
    ⟨2 ^ (28 - parent.plen) - 1, by have := one_le_pow32 (28 - parent.plen); omega⟩
  have hlist : subnetsList parent 28
      = ⟨parent.base, 28⟩ :: subnetsFrom 16 28 (parent.base + 16) m := by
    show subnetsFrom (2 ^ (32 - 28)) 28 parent.base (2 ^ (28 - parent.plen)) = _
    rw [hm]
    rfl
  unfold deriveFirstSubBlock
  rw [hch, hlist]

/-- Inversion of a successful `allocCore` call: the returned network block is
exactly what the first-fit scan found. -/
theorem allocCore_ok {C : List Cidr} {r s : Cidr}
    (h : allocCore C = .ok (r, s)) :
    vnetCandidates.find? (fun c => !overlapsAny c C) = some r := by
  unfold allocCore at h
  cases hf : vnetCandidates.find? (fun c => !overlapsAny c C) with
  | none =>
    rw [hf] at h
    exact absurd h (by simp)
  | some v =>
    rw [hf] at h
    change Except.map (fun s => (v, s)) (deriveFirstSubBlock v)
      = Except.ok (r, s) at h
    cases hd : deriveFirstSubBlock v with
    | error e =>
      rw [hd] at h
      exact absurd h (by simp [Except.map])
    | ok s0 =>
      rw [hd] at h
      simp only [Except.map, Except.ok.injEq, Prod.mk.injEq] at h
      rw [h.1]

/-- Inversion of a successful `get_next_subnet_in_vnet` call (non-dry-run,
VNet present, first prefix parseable). -/
theorem getNextSubnetInVnet_ok_inv {prefixes : List String}
    {subs : List (Option String)} {p0 : String} {rest : List String}
    {n r : Cidr} (h1 : prefixes = p0 :: rest) (h2 : parseNetwork p0 = some n)
    (h3 : getNextSubnetInVnet false (some ⟨prefixes, subs⟩) = .ok r) :
    ∃ ex cands, collectSubnets subs = .ok ex ∧
      subnetsChecked n SUBNET_PREFIX_LEN = .ok cands ∧
      cands.find? (fun s => !overlapsAny s ex) = some r := by
  subst h1
  have ha : (match parseNetwork p0 with
      | none => (Except.error AzError.valueError : Except AzError Cidr)
      | some vn =>
        match collectSubnets subs with
        | .error e => .error e
        | .ok ex => subnetScanCore vn ex) = .ok r := h3
  rw [h2] at ha
  have hb : (match collectSubnets subs with
      | .error e => (Except.error e : Except AzError Cidr)
      | .ok ex => subnetScanCore n ex) = .ok r := ha
  cases hcol : collectSubnets subs with
  | error e =>
    rw [hcol] at hb
    exact absurd (show (Except.error e : Except AzError Cidr) = .ok r from hb)
      (by simp)
  | ok ex =>
    rw [hcol] at hb
    have hc : subnetScanCore n ex = .ok r := hb
    unfold subnetScanCore at hc
    cases hch : subnetsChecked n SUBNET_PREFIX_LEN with
    | error e =>
      rw [hch] at hc
      exact absurd (show (Except.error e : Except AzError Cidr) = .ok r from hc)
        (by simp)
    | ok cands =>
      rw [hch] at hc
      have hd : (match cands.find? (fun s => !overlapsAny s ex) with
          | some s => (Except.ok s : Except AzError Cidr)
          | none => .error .addressSpaceExhausted) = .ok r := hc
      cases hfind : cands.find? (fun s => !overlapsAny s ex) with
      | none =>
        rw [hfind] at hd
        exact absurd (show (Except.error AzError.addressSpaceExhausted :
          Except AzError Cidr) = .ok r from hd) (by simp)
      | some s =>
        rw [hfind] at hd
        have hsr : s = r := by
          injection (show (Except.ok s : Except AzError Cidr) = .ok r from hd)
        exact ⟨ex, cands, rfl, rfl, hfind.trans (congrArg some hsr)⟩

/-- Every `/27` candidate overlaps the claimed budget `10.200.0.0/16`
itself (used to discharge the exhaustion hypothesis at a concrete input). -/
theorem budget_covers_candidates (c : Cidr) (hc : c ∈ vnetCandidates) :
    overlapsAny c (parseExisting ["10.200.0.0/16"]) = true := by
  have hplen := vnetCandidates_plen hc
  rw [vnetCandidates_eq] at hc
  obtain ⟨i, hi, hb, hk⟩ := mem_subnetsFrom hc
  have hp : parseExisting ["10.200.0.0/16"] = [⟨180879360, 16⟩] := by decide
  rw [hp]
  show (overlaps c ⟨180879360, 16⟩ || false) = true
  rw [Bool.or_false, overlaps_iff]
  have h1 : lastAddr ⟨180879360, 16⟩ = 180944895 := by decide
  have hpow : (2 : Nat) ^ (32 - 27) = 32 := by norm_num
  have h2 : lastAddr c = c.base + 31 := by rw [lastAddr, hk, hpow]; omega
  have h3 : i * 32 ≤ 2047 * 32 := Nat.mul_le_mul_right 32 (by omega)
  rw [h1, h2, hb]
  show 180879360 + i * 32 ≤ 180944895 ∧ 180879360 ≤ 180879360 + i * 32 + 31
  omega

/-! ### The claims -/

/-- C1: `get_next_available_prefix` enumerates the `/27` candidate blocks of
the `10.200.0.0/16` budget in ascending numeric order of base address and
returns the first candidate that overlaps no member of the claimed set
(overlap being interval intersection regardless of prefix length): a
successful result is a candidate, free of overlap, and of minimal base among
the overlap-free candidates; for claimed `["10.200.0.0/27"]` it returns
`10.200.0.32/27`, and for claimed `[]` it returns `10.200.0.0/27`. -/
theorem allocateTopLevel_first_fit_ascending (ps : List String) (v s : Cidr)
    (h : getNextAvailablePrefix ps = .ok (v, s)) :
    (v ∈ vnetCandidates ∧ overlapsAny v (parseExisting ps) = false ∧
      (∀ c ∈ vnetCandidates,
        overlapsAny c (parseExisting ps) = false → v.base ≤ c.base)) ∧
    (∀ a b : Cidr, overlaps a b = true ↔
      a.base ≤ lastAddr b ∧ b.base ≤ lastAddr a) ∧
    getNextAvailablePrefix ["10.200.0.0/27"]
      = .ok (⟨180879392, 27⟩, ⟨180879392, 28⟩) ∧
    getNextAvailablePrefix [] = .ok (⟨180879360, 27⟩, ⟨180879360, 28⟩) := by
  refine ⟨?_, overlaps_iff, by decide, by decide⟩
  have hf := allocCore_ok h
  refine ⟨List.mem_of_find?_eq_some hf, ?_, ?_⟩
  · have hp := List.find?_some hf
    simpa using hp
  · intro c hc hcf
    exact find?_first vnetCandidates_sorted hf c hc (by simp [hcf])

/-- Witness for C1 at the concrete claimed set `[]`. -/
theorem allocateTopLevel_first_fit_ascending_witness :
    ((⟨180879360, 27⟩ : Cidr) ∈ vnetCandidates ∧
      overlapsAny ⟨180879360, 27⟩ (parseExisting []) = false ∧
      (∀ c ∈ vnetCandidates,
        overlapsAny c (parseExisting []) = false →
          (⟨180879360, 27⟩ : Cidr).base ≤ c.base)) ∧
    (∀ a b : Cidr, overlaps a b = true ↔
      a.base ≤ lastAddr b ∧ b.base ≤ lastAddr a) ∧
    getNextAvailablePrefix ["10.200.0.0/27"]
      = .ok (⟨180879392, 27⟩, ⟨180879392, 28⟩) ∧
    getNextAvailablePrefix [] = .ok (⟨180879360, 27⟩, ⟨180879360, 28⟩) :=
  allocateTopLevel_first_fit_ascending [] ⟨180879360, 27⟩ ⟨180879360, 28⟩
    (by decide)

/-- C2: when every `/27` candidate block overlaps some member of the claimed
set, `get_next_available_prefix` fails with the address-space-exhausted
error instead of returning a range. -/
theorem allocateTopLevel_exhausted (ps : List String)
    (h : ∀ c ∈ vnetCandidates, overlapsAny c (parseExisting ps) = true) :
    getNextAvailablePrefix ps = .error .addressSpaceExhausted := by
  have hnone :
      vnetCandidates.find? (fun c => !overlapsAny c (parseExisting ps))
        = none := by
    rw [List.find?_eq_none]
    intro a ha
    simp [h a ha]
  unfold getNextAvailablePrefix allocCore
  rw [hnone]

/-- Witness for C2: claiming the whole budget `10.200.0.0/16` covers every
candidate, and the allocator reports exhaustion. -/
theorem allocateTopLevel_exhausted_witness :
    getNextAvailablePrefix ["10.200.0.0/16"]
      = .error .addressSpaceExhausted :=
  allocateTopLevel_exhausted ["10.200.0.0/16"] budget_covers_candidates

/-- C3 (code bug): in FullReuse mode (both names supplied) with a
non-existent network and subnet, the resolver returns the configuration
unchanged and succeeds — it does not fail with NotFound, although the source
comment says "validate they exist" (the queries run with `check=False` and a
missing result is silently ignored). -/
theorem fullReuse_missing_network_silently_accepted :
    cfgFullReuseMissing.reuseVnet = true ∧
    cfgFullReuseMissing.reuseSubnet = true ∧
    envNoInventory.subnetShow = none ∧
    envNoInventory.vnetShow = none ∧
    resolveNetworkConfig cfgFullReuseMissing envNoInventory
      = .ok cfgFullReuseMissing ∧
    resolveNetworkConfig cfgFullReuseMissing envNoInventory
      ≠ .error .notFound := by decide

/-- C4 (code bug): in FreshAllocation mode with both an explicit network
range and an explicit subnet range, the resolver passes them through
unchanged with no containment validation: here the subnet `10.201.0.0/28`
is not contained in the network `10.200.0.0/27`, yet the resolver succeeds
instead of failing with InvalidRange. -/
theorem freshAllocation_explicit_ranges_unvalidated :
    parseNetwork cfgExplicitRanges.vnetPrefix = some ⟨180879360, 27⟩ ∧
    parseNetwork cfgExplicitRanges.subnetPrefix = some ⟨180944896, 28⟩ ∧
    ¬ subnetOf ⟨180944896, 28⟩ ⟨180879360, 27⟩ ∧
    resolveNetworkConfig cfgExplicitRanges envNoInventory
      = .ok cfgExplicitRanges := by decide

/-- C5 counterexample: for a VNet whose first listed prefix is the single
address `10.200.5.1/32`, `get_next_subnet_in_vnet` succeeds and returns that
`/32` itself (CPython's `subnets` yields a maximal-length network unchanged,
whatever `new_prefix` asks), so the returned range is not a `/28`. -/
theorem allocateSubBlock_slash32_counterexample :
    getNextSubnetInVnet false (some ⟨["10.200.5.1/32"], []⟩)
      = .ok ⟨180880641, 32⟩ ∧
    (Cidr.mk 180880641 32).plen ≠ SUBNET_PREFIX_LEN := by decide

/-- C5 (amended): whenever the first listed prefix parses to a block whose
prefix length is at most 28, a successful `get_next_subnet_in_vnet` returns
a `/28` contained in that block and overlapping none of the existing
subnets; scenario D holds as claimed (existing subnets `[10.200.5.0/28]`
inside `10.200.5.0/27` yield `10.200.5.16/28`, with the network reused and
the subnet fresh). -/
theorem allocateSubBlock_contained_nonoverlapping (prefixes : List String)
    (subs : List (Option String)) (p0 : String) (rest : List String)
    (n r : Cidr) (h1 : prefixes = p0 :: rest) (h2 : parseNetwork p0 = some n)
    (hn : n.plen ≤ SUBNET_PREFIX_LEN)
    (h3 : getNextSubnetInVnet false (some ⟨prefixes, subs⟩) = .ok r) :
    (r.plen = 28 ∧ subnetOf r n ∧
      ∃ ex, collectSubnets subs = .ok ex ∧
        ∀ s2 ∈ ex, overlaps r s2 = false) ∧
    resolveNetworkConfig cfgPartialReuse envScenarioD
      = .ok { cfgPartialReuse with
                vnetPrefix := "10.200.5.0/27"
                subnetPrefix := "10.200.5.16/28" } ∧
    cfgPartialReuse.reuseVnet = true ∧
    cfgPartialReuse.reuseSubnet = false ∧
    subnetOf ⟨180880656, 28⟩ ⟨180880640, 27⟩ ∧
    ("10.200.5.16/28" : String) ≠ "10.200.5.0/28" := by
  refine ⟨?_, by decide, by decide, by decide, by decide, by decide⟩
  obtain ⟨ex, cands, hcol, hch, hf⟩ := getNextSubnetInVnet_ok_inv h1 h2 h3
  have hch2 : subnetsChecked n SUBNET_PREFIX_LEN = .ok (subnetsList n 28) :=
    subnetsChecked_eq_ok hn (by decide)
  rw [hch2] at hch
  have hcands : subnetsList n 28 = cands := by injection hch
  have hmem := List.mem_of_find?_eq_some hf
  rw [← hcands] at hmem
  obtain ⟨hp, hsub⟩ := subnetsList_mem_subnetOf hn (by decide) hmem
  refine ⟨hp, hsub, ex, hcol, ?_⟩
  intro s2 hs2
  have hpred := List.find?_some hf
  have hov : overlapsAny r ex = false := by simpa using hpred
  have := List.any_eq_false.mp hov s2 hs2
  simpa using this

/-- Witness for C5 at the scenario D input. -/
theorem allocateSubBlock_contained_nonoverlapping_witness :
    ((Cidr.mk 180880656 28).plen = 28 ∧
      subnetOf ⟨180880656, 28⟩ ⟨180880640, 27⟩ ∧
      ∃ ex, collectSubnets [some "10.200.5.0/28"] = .ok ex ∧
        ∀ s2 ∈ ex, overlaps ⟨180880656, 28⟩ s2 = false) ∧
    resolveNetworkConfig cfgPartialReuse envScenarioD
      = .ok { cfgPartialReuse with
                vnetPrefix := "10.200.5.0/27"
                subnetPrefix := "10.200.5.16/28" } ∧
    cfgPartialReuse.reuseVnet = true ∧
    cfgPartialReuse.reuseSubnet = false ∧
    subnetOf ⟨180880656, 28⟩ ⟨180880640, 27⟩ ∧
    ("10.200.5.16/28" : String) ≠ "10.200.5.0/28" :=
  allocateSubBlock_contained_nonoverlapping ["10.200.5.0/27"]
    [some "10.200.5.0/28"] "10.200.5.0/27" [] ⟨180880640, 27⟩
    ⟨180880656, 28⟩ rfl (by decide) (by decide) (by decide)

/-- C6: `deriveFirstSubBlock` (the shared `list(subnets(new_prefix=28))[0]`
expression) returns the `/28` that shares the parent's base address — the
numerically first `/28` inside the parent, since every `/28` contained in
the parent has a base address at least the parent's; it consults no claimed
set (none is passed).  Scenario C: parent `10.200.0.0/27` yields
`10.200.0.0/28`. -/
theorem deriveFirstSubBlock_first_slash28 (parent : Cidr)
    (h : parent.plen ≤ SUBNET_PREFIX_LEN) :
    deriveFirstSubBlock parent = .ok ⟨parent.base, 28⟩ ∧
    subnetOf ⟨parent.base, 28⟩ parent ∧
    (∀ c : Cidr, c.plen = 28 → subnetOf c parent → parent.base ≤ c.base) ∧
    deriveFirstSubBlock ⟨180879360, 27⟩ = .ok ⟨180879360, 28⟩ := by
  have h28 : parent.plen ≤ 28 := h
  refine ⟨deriveFirstSubBlock_ok h, ⟨Nat.le_refl _, ?_⟩, ?_, by decide⟩
  · have h4 : (2 : Nat) ^ (32 - 28) ≤ 2 ^ (32 - parent.plen) :=
      Nat.pow_le_pow_right (by norm_num) (by omega)
    show parent.base + 2 ^ (32 - 28) - 1
      ≤ parent.base + 2 ^ (32 - parent.plen) - 1
    omega
  · intro c hc hsub
    exact hsub.1

/-- Witness for C6 at the parent `10.200.0.0/27`. -/
theorem deriveFirstSubBlock_first_slash28_witness :
    deriveFirstSubBlock ⟨180879360, 27⟩ = .ok ⟨180879360, 28⟩ ∧
    subnetOf ⟨180879360, 28⟩ ⟨180879360, 27⟩ ∧
    (∀ c : Cidr, c.plen = 28 → subnetOf c ⟨180879360, 27⟩ →
      (Cidr.mk 180879360 27).base ≤ c.base) ∧
    deriveFirstSubBlock ⟨180879360, 27⟩ = .ok ⟨180879360, 28⟩ :=
  deriveFirstSubBlock_first_slash28 ⟨180879360, 27⟩ (by decide)

/-- C7 counterexample: an input containing the malformed range string
`"not-a-cidr"` does not make the allocator fail at all — the entry is
swallowed by `except ValueError: pass` and allocation proceeds, returning
`10.200.0.0/27`. -/
theorem malformed_claimed_no_invalid_range :
    parseNetwork "not-a-cidr" = none ∧
    getNextAvailablePrefix ["not-a-cidr"]
      = .ok (⟨180879360, 27⟩, ⟨180879360, 28⟩) := by decide

/-- C7 (amended): a malformed claimed entry is silently skipped: the
allocation result is exactly the result on the remaining entries, and no
InvalidRange failure occurs before (or during) enumeration. -/
theorem malformed_claimed_entries_skipped (s0 : String) (ps : List String)
    (h : parseNetwork s0 = none) :
    getNextAvailablePrefix (s0 :: ps) = getNextAvailablePrefix ps := by
  unfold getNextAvailablePrefix parseExisting
  rw [List.filterMap_cons_none h]

/-- Witness for C7 at the malformed entry `"not-a-cidr"`. -/
theorem malformed_claimed_entries_skipped_witness :
    getNextAvailablePrefix ["not-a-cidr", "10.200.0.0/27"]
      = getNextAvailablePrefix ["10.200.0.0/27"] :=
  malformed_claimed_entries_skipped "not-a-cidr" ["10.200.0.0/27"]
    (by decide)

/-- C8: round-trip non-reuse — when the claimed set leaves at least two
distinct overlap-free `/27` candidates and the allocator returns `r`, a
second allocation against the claimed set extended with `r` succeeds and
returns a block different from `r`. -/
theorem allocateTopLevel_round_trip (C : List Cidr) (r s c₁ c₂ : Cidr)
    (h1 : c₁ ∈ vnetCandidates) (h2 : c₂ ∈ vnetCandidates) (hne : c₁ ≠ c₂)
    (hf1 : overlapsAny c₁ C = false) (hf2 : overlapsAny c₂ C = false)
    (halloc : allocCore C = .ok (r, s)) :
    ∃ r2 s2, allocCore (r :: C) = .ok (r2, s2) ∧ r2 ≠ r := by
  have hfind := allocCore_ok halloc
  have hrmem := List.mem_of_find?_eq_some hfind
  obtain ⟨c, hcmem, hcfree, hcr⟩ :
      ∃ c, c ∈ vnetCandidates ∧ overlapsAny c C = false ∧ c ≠ r := by
    by_cases h : c₁ = r
    · refine ⟨c₂, h2, hf2, ?_⟩
      intro he
      exact hne (h.trans he.symm)
    · exact ⟨c₁, h1, hf1, h⟩
  have hdisj : overlaps c r = false := vnetCandidates_disjoint hcmem hrmem hcr
  have hpc : (fun x => !overlapsAny x (r :: C)) c = true := by
    have : overlapsAny c (r :: C) = false := by
      show (overlaps c r || overlapsAny c C) = false
      rw [hdisj, hcfree]
      rfl
    simp [this]
  cases hfind2 : vnetCandidates.find? (fun x => !overlapsAny x (r :: C)) with
  | none =>
    exact absurd hpc (List.find?_eq_none.mp hfind2 c hcmem)
  | some r2 =>
    have hp2 := List.find?_some hfind2
    have hr2mem := List.mem_of_find?_eq_some hfind2
    have hr2ne : r2 ≠ r := by
      intro he
      subst he
      have hov : overlapsAny r2 (r2 :: C) = false := by simpa using hp2
      have : (overlaps r2 r2 || overlapsAny r2 C) = false := hov
      rw [overlaps_self r2] at this
      simp at this
    have hd2 : deriveFirstSubBlock r2 = .ok ⟨r2.base, 28⟩ :=
      deriveFirstSubBlock_ok (by have := vnetCandidates_plen hr2mem; omega)
    refine ⟨r2, ⟨r2.base, 28⟩, ?_, hr2ne⟩
    unfold allocCore
    rw [hfind2]
    show Except.map (fun s2 => (r2, s2)) (deriveFirstSubBlock r2)
      = .ok (r2, ⟨r2.base, 28⟩)
    rw [hd2]
    rfl

/-- Witness for C8 at the empty claimed set (first two candidates free). -/
theorem allocateTopLevel_round_trip_witness :
    ∃ r2 s2, allocCore (⟨180879360, 27⟩ :: []) = .ok (r2, s2) ∧
      r2 ≠ ⟨180879360, 27⟩ :=
  allocateTopLevel_round_trip [] ⟨180879360, 27⟩ ⟨180879360, 28⟩
    ⟨180879360, 27⟩ ⟨180879392, 27⟩ (by decide) (by decide) (by decide)
    (by decide) (by decide) (by decide)

/-- C9: `get_next_available_prefix` is a pure, deterministic function of the
manager state and the inventory snapshot: identical worlds give identical
results, the call leaves the world unchanged (no attribute of the manager
and no element of the inventory is mutated — the method only reads), and a
repeated call after a first one returns the same range. -/
theorem getNextAvailable_pure_deterministic (w w2 : ManagerWorld)
    (h : w = w2) :
    (runGetNextAvailablePrefix w).1 = (runGetNextAvailablePrefix w2).1 ∧
    (runGetNextAvailablePrefix w).2 = w ∧
    (runGetNextAvailablePrefix ((runGetNextAvailablePrefix w).2)).1
      = (runGetNextAvailablePrefix w).1 := by
  subst h
  exact ⟨rfl, rfl, rfl⟩

/-- Witness for C9 at a concrete world. -/
theorem getNextAvailable_pure_deterministic_witness :
    (runGetNextAvailablePrefix ⟨false, false, "rg", ⟨none, none, none⟩⟩).1
      = (runGetNextAvailablePrefix ⟨false, false, "rg", ⟨none, none, none⟩⟩).1 ∧
    (runGetNextAvailablePrefix ⟨false, false, "rg", ⟨none, none, none⟩⟩).2
      = ⟨false, false, "rg", ⟨none, none, none⟩⟩ ∧
    (runGetNextAvailablePrefix
        ((runGetNextAvailablePrefix
          ⟨false, false, "rg", ⟨none, none, none⟩⟩).2)).1
      = (runGetNextAvailablePrefix ⟨false, false, "rg", ⟨none, none, none⟩⟩).1 :=
  getNextAvailable_pure_deterministic _ _ rfl

/-- C10: subnet allocation in PartialReuse mode draws candidates only from
the first listed address prefix — every successful result is contained in
the block parsed from `addressPrefixes[0]` (existing subnets of every prefix
are fed to the overlap check, but blocks of later prefixes are never
candidates) — and a VNet whose first prefix is fully taken is reported
exhausted even though its second prefix has free `/28` space (the same
subnet inventory with that prefix listed first succeeds). -/
theorem subnet_allocation_first_listed_only (prefixes : List String)
    (subs : List (Option String)) (p0 : String) (rest : List String)
    (n r : Cidr) (h1 : prefixes = p0 :: rest) (h2 : parseNetwork p0 = some n)
    (h3 : getNextSubnetInVnet false (some ⟨prefixes, subs⟩) = .ok r) :
    subnetOf r n ∧
    getNextSubnetInVnet false (some vnetTwoPrefixes)
      = .error .addressSpaceExhausted ∧
    getNextSubnetInVnet false (some vnetSecondPrefixOnly)
      = .ok ⟨180880896, 28⟩ := by
  refine ⟨?_, by decide, by decide⟩
  obtain ⟨ex, cands, hcol, hch, hf⟩ := getNextSubnetInVnet_ok_inv h1 h2 h3
  have hmem := List.mem_of_find?_eq_some hf
  by_cases h32 : n.plen = 32
  · have hch32 : subnetsChecked n SUBNET_PREFIX_LEN = .ok [n] := by
      unfold subnetsChecked
      rw [if_pos h32]
    rw [hch32] at hch
    have hcands : [n] = cands := by injection hch
    rw [← hcands] at hmem
    have hr : r = n := by simpa using hmem
    rw [hr]
    exact ⟨Nat.le_refl _, Nat.le_refl _⟩
  · have hle : n.plen ≤ 28 := by
      by_contra hgt
      have herr : subnetsChecked n SUBNET_PREFIX_LEN = .error .valueError := by
        unfold subnetsChecked
        rw [if_neg h32, if_pos (show SUBNET_PREFIX_LEN < n.plen by
          show 28 < n.plen
          omega)]
      rw [herr] at hch
      exact absurd hch (by simp)
    have hch2 : subnetsChecked n SUBNET_PREFIX_LEN = .ok (subnetsList n 28) :=
      subnetsChecked_eq_ok hle (by decide)
    rw [hch2] at hch
    have hcands : subnetsList n 28 = cands := by injection hch
    rw [← hcands] at hmem
    exact (subnetsList_mem_subnetOf hle (by decide) hmem).2

/-- Witness for C10 at a single-prefix VNet. -/
theorem subnet_allocation_first_listed_only_witness :
    subnetOf ⟨180880656, 28⟩ ⟨180880640, 27⟩ ∧
    getNextSubnetInVnet false (some vnetTwoPrefixes)
      = .error .addressSpaceExhausted ∧
    getNextSubnetInVnet false (some vnetSecondPrefixOnly)
      = .ok ⟨180880896, 28⟩ :=
  subnet_allocation_first_listed_only ["10.200.5.0/27"]
    [some "10.200.5.0/28"] "10.200.5.0/27" [] ⟨180880640, 27⟩
    ⟨180880656, 28⟩ rfl (by decide) (by decide)

end OpenClawDeploy
